import Mathlib

/-!
Verification of the Callendar-Van Dusen RTD calculator (src/main.py).

The forward evaluation, the coefficient constants and the sensor registry
are embedded from the source over exact rationals.  The inverse solver of
the source delegates to the external routine `scipy.optimize.newton`; it
is modelled here from the specification's explicit description of the
Newton iteration (fixed starting point, step `-f(t)/f'(t)`, tolerance
`1e-6` on the change of the estimate, iteration cap `50`, failure
signalled as an `Option`-typed absence).
-/

unseal Rat.mul Rat.inv Rat.add Rat.sub

namespace Main

/-- Linear coefficient `A = 3.9083e-3` of the source (line 7). -/
def A : ℚ := 39083 / 10^7

/-- Quadratic coefficient `B = -5.775e-7` of the source (line 8). -/
def B : ℚ := -5775 / 10^10

/-- Cubic coefficient `C = -4.183e-12` of the source (line 9). -/
def C : ℚ := -4183 / 10^15

/-- RTD base resistances `R0_values` of the source (lines 12-15). -/
def R0_values : List (String × ℚ) := [(("PT100"), 100), (("PT1000"), 1000)]

/-- Forward evaluation `resistance_from_temperature` of the source
(lines 18-22), with the module-level coefficients `A`, `B`, `C` that the
source reads as globals passed as explicit parameters `a`, `b`, `c`. -/
def resistance_cvd (a b c t R0 : ℚ) : ℚ :=
  if t ≥ 0 then R0 * (1 + a*t + b*t^2)
  else R0 * (1 + a*t + b*t^2 + c*(t-100)*t^3)

/-- The source's `resistance_from_temperature(t, R0)` (lines 18-22): the
parametric forward evaluation at the source's global coefficients. -/
def resistance_from_temperature (t R0 : ℚ) : ℚ := resistance_cvd A B C t R0

/-- Modelled from the spec: the analytic local slope of the forward
evaluation used by the Newton-style inverse solver.  The source calls the
external routine `scipy.optimize.newton`, which is not part of this
repository; the spec describes the solver as advancing by `-f(t)/f'(t)`
where `f'` is the local slope of the residual.  This is the derivative of
`resistance_from_temperature` in `t` on each branch. -/
def cvd_deriv (t R0 : ℚ) : ℚ :=
  if t ≥ 0 then R0 * (A + 2*B*t)
  else R0 * (A + 2*B*t + C*(4*t^3 - 300*t^2))

/-- Modelled from the spec: one Newton step for the residual
`resistance_from_temperature t R0 - R`, advancing by `-f(t)/f'(t)`. -/
def newtonStep (R R0 t : ℚ) : ℚ :=
  t - (resistance_from_temperature t R0 - R) / cvd_deriv t R0

/-- Modelled from the spec: the fuelled Newton iteration.  It stops with
`some` as soon as the absolute change of the estimate drops below the
tolerance `1e-6`, and signals failure with `none` when the slope is
numerically zero or the iteration budget is exhausted. -/
def newtonIter (R R0 : ℚ) : ℚ → Nat → Option ℚ
  | _, 0 => none
  | t, n+1 =>
    if cvd_deriv t R0 = 0 then none
    else
      if |newtonStep R R0 t - t| < 1/1000000 then some (newtonStep R R0 t)
      else newtonIter R R0 (newtonStep R R0 t) n

/-- Modelled from the spec: the source's `temperature_from_resistance(R, R0,
initial_guess)` (lines 25-31), whose root-finding call `newton(f,
initial_guess, tol=1e-6, maxiter=50)` is external library code; the spec
describes it as a Newton iteration with tolerance `1e-6` and iteration cap
`50` that reports non-convergence as data (`None`) instead of raising. -/
def temperature_from_resistance (R R0 initial_guess : ℚ) : Option ℚ :=
  newtonIter R R0 initial_guess 50

/-- Modelled from the spec: the read-only registry lookup
`lookupSensor(name) -> SensorDefinition | NotFound`.  The source itself
only subscripts the dict `R0_values` with keys taken from its own key
list (lines 38-40); the spec requires a typed absence for unknown names. -/
def lookupSensor (name : String) : Option ℚ :=
  List.lookup name R0_values

/-- Executable check that an inverse-solver result is a `some` value lying
in the closed interval `[lo, hi]`. -/
def solver_in_range (o : Option ℚ) (lo hi : ℚ) : Bool :=
  match o with
  | none => false
  | some u => decide (lo ≤ u ∧ u ≤ hi)

/-! ## Helper lemmas -/

theorem solver_in_range_sound {o : Option ℚ} {lo hi : ℚ}
    (h : solver_in_range o lo hi = true) : ∃ u, o = some u ∧ lo ≤ u ∧ u ≤ hi := by
  cases o with
  | none => simp [solver_in_range] at h
  | some u =>
    refine ⟨u, rfl, ?_⟩
    simpa [solver_in_range] using h

/-- Strict monotonicity of the quadratic branch formula on `[0, 850]`. -/
theorem quadratic_strict_mono (R0 t u : ℚ) (hR0 : 0 < R0) (h0 : 0 ≤ t)
    (htu : t < u) (h850 : u ≤ 850) :
    R0 * (1 + A*t + B*t^2) < R0 * (1 + A*u + B*u^2) := by
  have key : R0 * (1 + A*u + B*u^2) - R0 * (1 + A*t + B*t^2)
      = R0 * (u - t) * (A + B*(t+u)) := by ring
  have hlin : 0 < A + B*(t+u) := by
    simp only [A, B]
    nlinarith
  nlinarith [mul_pos (mul_pos hR0 (sub_pos.mpr htu)) hlin]

/-- Strict monotonicity of the cubic branch formula on `(-∞, 0]`. -/
theorem cubic_strict_mono (R0 t u : ℚ) (hR0 : 0 < R0)
    (htu : t < u) (hu0 : u ≤ 0) :
    R0 * (1 + A*t + B*t^2 + C*(t-100)*t^3)
      < R0 * (1 + A*u + B*u^2 + C*(u-100)*u^3) := by
  have htu0 : t + u ≤ 0 := by linarith
  have hT1 : 0 ≤ (-(5775/10^10 : ℚ)) * (t+u) := by nlinarith
  have hT2 : 0 ≤ (4183/10^15 : ℚ) * (-(t+u)) * (t^2+u^2) := by
    have h1 : (0:ℚ) ≤ 4183/10^15 := by norm_num
    have h2 : (0:ℚ) ≤ -(t+u) := by linarith
    have h3 : (0:ℚ) ≤ t^2 + u^2 := by positivity
    exact mul_nonneg (mul_nonneg h1 h2) h3
  have hT3 : 0 ≤ (418300/10^15 : ℚ) * (t^2 + t*u + u^2) := by
    have h2 : (0:ℚ) ≤ t^2 + t*u + u^2 := by
      nlinarith [sq_nonneg (t+u), sq_nonneg t, sq_nonneg u]
    have h1 : (0:ℚ) ≤ 418300/10^15 := by norm_num
    exact mul_nonneg h1 h2
  have hg : 0 < A + B*(t+u) + C*(t^3 + t^2*u + t*u^2 + u^3)
      - 100*C*(t^2 + t*u + u^2) := by
    simp only [A, B, C]
    nlinarith [hT1, hT2, hT3]
  have key : R0 * (1 + A*u + B*u^2 + C*(u-100)*u^3)
      - R0 * (1 + A*t + B*t^2 + C*(t-100)*t^3)
      = R0 * (u - t) * (A + B*(t+u) + C*(t^3 + t^2*u + t*u^2 + u^3)
          - 100*C*(t^2 + t*u + u^2)) := by ring
  nlinarith [mul_pos (mul_pos hR0 (sub_pos.mpr htu)) hg]

/-- Any `some` answer of the fuelled Newton iteration was produced by a
step from some estimate `s` whose slope was nonzero and which satisfied
the convergence test. -/
theorem newtonIter_some_conv (R R0 : ℚ) :
    ∀ (n : Nat) (t u : ℚ), newtonIter R R0 t n = some u →
      ∃ s, cvd_deriv s R0 ≠ 0 ∧ u = newtonStep R R0 s ∧ |u - s| < 1/1000000 := by
  intro n
  induction n with
  | zero => intro t u h; simp [newtonIter] at h
  | succ k ih =>
    intro t u h
    simp only [newtonIter] at h
    by_cases hfp : cvd_deriv t R0 = 0
    · rw [if_pos hfp] at h
      exact absurd h (by simp)
    · rw [if_neg hfp] at h
      by_cases hc : |newtonStep R R0 t - t| < 1/1000000
      · rw [if_pos hc] at h
        have hu : newtonStep R R0 t = u := by
          injection h
        exact ⟨t, hfp, hu.symm, hu ▸ hc⟩
      · rw [if_neg hc] at h
        exact ih (newtonStep R R0 t) u h

/-! ## Claims -/

/-- C1: for every sensor definition with `R0 > 0` and every temperature
`t`, the forward evaluation returns `R0*(1 + A*t + B*t^2)` when `t ≥ 0` or
the definition's cubic coefficient is zero, and returns
`R0*(1 + A*t + B*t^2 + C*(t-100)*t^3)` when `t < 0` and the cubic
coefficient is nonzero. -/
theorem forward_branch_selection (a b c t R0 : ℚ) (hR0 : 0 < R0) :
    ((0 ≤ t ∨ c = 0) → resistance_cvd a b c t R0 = R0 * (1 + a*t + b*t^2)) ∧
    ((t < 0 ∧ c ≠ 0) →
      resistance_cvd a b c t R0 = R0 * (1 + a*t + b*t^2 + c*(t-100)*t^3)) := by
  unfold resistance_cvd
  split_ifs with h
  · exact ⟨fun _ => rfl, fun hc => absurd h (not_le.mpr hc.1)⟩
  · constructor
    · rintro (h0 | hc)
      · exact absurd h0 (by simpa using h)
      · rw [hc]; ring
    · intro _; rfl

theorem forward_branch_selection_witness :
    0 < (100:ℚ) ∧
    ((((0:ℚ) ≤ -5 ∨ C = 0) →
        resistance_cvd A B C (-5) 100 = 100 * (1 + A*(-5) + B*(-5)^2)) ∧
      (((-5:ℚ) < 0 ∧ C ≠ 0) →
        resistance_cvd A B C (-5) 100
          = 100 * (1 + A*(-5) + B*(-5)^2 + C*((-5)-100)*(-5)^3))) :=
  ⟨by norm_num, forward_branch_selection A B C (-5) 100 (by norm_num)⟩

/-- C7: for every sensor definition whose cubic coefficient is zero, the
forward evaluation equals the plain quadratic formula for every `t` of
either sign; the branch selection has no effect on the result. -/
theorem zero_cubic_invariance (a b t R0 : ℚ) :
    resistance_cvd a b 0 t R0 = R0 * (1 + a*t + b*t^2) ∧
    resistance_cvd a b 0 t R0 = R0 * (1 + a*t + b*t^2 + 0*(t-100)*t^3) := by
  unfold resistance_cvd
  split_ifs with h
  · exact ⟨rfl, by ring⟩
  · exact ⟨by ring, rfl⟩

/-- C5: with the source's coefficients, the forward evaluation is strictly
monotonic increasing on the valid range `[-200, 850]` for every positive
base resistance. -/
theorem forward_strict_monotonic (R0 t1 t2 : ℚ) (hR0 : 0 < R0)
    (hlo : -200 ≤ t1) (h12 : t1 < t2) (hhi : t2 ≤ 850) :
    resistance_from_temperature t1 R0 < resistance_from_temperature t2 R0 := by
  have ER : ∀ s : ℚ, 0 ≤ s →
      resistance_from_temperature s R0 = R0 * (1 + A*s + B*s^2) := by
    intro s hs
    simp [resistance_from_temperature, resistance_cvd, hs]
  have EC : ∀ s : ℚ, s < 0 →
      resistance_from_temperature s R0
        = R0 * (1 + A*s + B*s^2 + C*(s-100)*s^3) := by
    intro s hs
    simp [resistance_from_temperature, resistance_cvd, not_le.mpr hs]
  rcases le_or_lt 0 t1 with ha | ha
  · rw [ER t1 ha, ER t2 (le_trans ha h12.le)]
    exact quadratic_strict_mono R0 t1 t2 hR0 ha h12 hhi
  · rw [EC t1 ha]
    have step1 : R0 * (1 + A*t1 + B*t1^2 + C*(t1-100)*t1^3)
        < R0 * (1 + A*(0:ℚ) + B*(0:ℚ)^2 + C*((0:ℚ)-100)*(0:ℚ)^3) :=
      cubic_strict_mono R0 t1 0 hR0 ha le_rfl
    have e0 : R0 * (1 + A*(0:ℚ) + B*(0:ℚ)^2 + C*((0:ℚ)-100)*(0:ℚ)^3) = R0 := by
      ring
    rcases le_or_lt 0 t2 with hb | hb
    · rw [ER t2 hb]
      rcases eq_or_lt_of_le hb with h0 | h0
      · rw [← h0]
        nlinarith [step1]
      · have step2 : R0 * (1 + A*(0:ℚ) + B*(0:ℚ)^2) < R0 * (1 + A*t2 + B*t2^2) :=
          quadratic_strict_mono R0 0 t2 hR0 le_rfl h0 hhi
        have e1 : R0 * (1 + A*(0:ℚ) + B*(0:ℚ)^2) = R0 := by ring
        linarith
    · rw [EC t2 hb]
      exact cubic_strict_mono R0 t1 t2 hR0 h12 hb.le

theorem forward_strict_monotonic_witness :
    (0 < (100:ℚ) ∧ (-200:ℚ) ≤ -50 ∧ (-50:ℚ) < 60 ∧ (60:ℚ) ≤ 850) ∧
    resistance_from_temperature (-50) 100 < resistance_from_temperature 60 100 :=
  ⟨by norm_num,
    forward_strict_monotonic 100 (-50) 60 (by norm_num) (by norm_num)
      (by norm_num) (by norm_num)⟩

/-- C4: the forward evaluation is a total function and its value is
bounded by an explicit finite polynomial bound in the inputs; it involves
no division and no error condition. -/
theorem forward_total_bounded (t R0 : ℚ) :
    |resistance_from_temperature t R0|
      ≤ |R0| * (1 + (39083/10^7)*|t| + (5775/10^10)*t^2
          + (4183/10^15)*(|t|+100)*|t|^3) := by
  unfold resistance_from_temperature resistance_cvd
  rcases le_or_lt 0 t with ht | ht
  · rw [if_pos (show t ≥ 0 from ht), abs_of_nonneg ht, abs_mul]
    have hX : |1 + A*t + B*t^2|
        ≤ 1 + (39083/10^7)*t + (5775/10^10)*t^2 + (4183/10^15)*(t+100)*t^3 := by
      have hc : (0:ℚ) ≤ (4183/10^15)*(t+100)*t^3 := by
        have := pow_nonneg ht 3
        positivity
      rw [abs_le]
      constructor
      · simp only [A, B]; nlinarith [sq_nonneg t]
      · simp only [A, B]; nlinarith [sq_nonneg t]
    exact mul_le_mul_of_nonneg_left hX (abs_nonneg R0)
  · rw [if_neg (show ¬ t ≥ 0 from not_le.mpr ht), abs_of_neg ht, abs_mul]
    have ht3 : t^3 ≤ 0 := by nlinarith [sq_nonneg t]
    have ht4 : (0:ℚ) ≤ t^4 := by positivity
    have hX : |1 + A*t + B*t^2 + C*(t-100)*t^3|
        ≤ 1 + (39083/10^7)*(-t) + (5775/10^10)*t^2
            + (4183/10^15)*((-t)+100)*(-t)^3 := by
      rw [abs_le]
      constructor
      · simp only [A, B, C]; nlinarith [sq_nonneg t]
      · simp only [A, B, C]; nlinarith [sq_nonneg t]
    exact mul_le_mul_of_nonneg_left hX (abs_nonneg R0)

/-- C6: for a cubic-bearing sensor definition (the registered ones have
base resistance at most 1000), the two branch formulas agree at the
zero-temperature boundary: both equal `R0` at `t = 0`, and near zero they
differ by less than `1e-9` Ohms. -/
theorem branch_agreement_at_zero (R0 : ℚ) (h1 : 0 < R0) (h2 : R0 ≤ 1000) :
    resistance_cvd A B C 0 R0 = R0 ∧
    R0 * (1 + A*0 + B*0^2 + C*(0-100)*0^3) = R0 ∧
    ∀ t : ℚ, |t| ≤ 1/10 →
      |R0 * (1 + A*t + B*t^2) - R0 * (1 + A*t + B*t^2 + C*(t-100)*t^3)|
        < 1/10^9 := by
  refine ⟨?_, by ring, ?_⟩
  · unfold resistance_cvd
    rw [if_pos (by norm_num : (0:ℚ) ≥ 0)]
    ring
  · intro t ht
    rw [abs_le] at ht
    obtain ⟨htl, htu⟩ := ht
    have hq : t^2 ≤ 1/100 := by nlinarith
    have h3u : t^3 ≤ 1/1000 := by nlinarith
    have h3l : -(1/1000) ≤ t^3 := by nlinarith
    have h4u : t^4 ≤ 1/10000 := by nlinarith [sq_nonneg (t^2 - 1/100)]
    have h4l : (0:ℚ) ≤ t^4 := by positivity
    have hRt3u : R0 * t^3 ≤ 1 := by nlinarith
    have hRt3l : -1 ≤ R0 * t^3 := by nlinarith
    have hRt4u : R0 * t^4 ≤ 1/10 := by nlinarith
    have hRt4l : (0:ℚ) ≤ R0 * t^4 := by positivity
    have key : R0 * (1 + A*t + B*t^2) - R0 * (1 + A*t + B*t^2 + C*(t-100)*t^3)
        = (4183/10^15) * (R0 * t^4) - (418300/10^15) * (R0 * t^3) := by
      simp only [A, B, C]; ring
    rw [key, abs_lt]
    constructor
    · nlinarith
    · nlinarith

theorem branch_agreement_at_zero_witness :
    (0 < (100:ℚ) ∧ (100:ℚ) ≤ 1000) ∧
    (resistance_cvd A B C 0 100 = 100 ∧
      (100:ℚ) * (1 + A*0 + B*0^2 + C*(0-100)*0^3) = 100 ∧
      ∀ t : ℚ, |t| ≤ 1/10 →
        |100 * (1 + A*t + B*t^2) - 100 * (1 + A*t + B*t^2 + C*(t-100)*t^3)|
          < 1/10^9) :=
  ⟨by norm_num, branch_agreement_at_zero 100 (by norm_num) (by norm_num)⟩

/-- C9: looking up any name absent from the sensor registry yields the
typed absence `none`; the two registered names yield their definitions. -/
theorem lookup_absent_typed (name : String)
    (h1 : name ≠ "PT100") (h2 : name ≠ "PT1000") :
    lookupSensor name = none := by
  have b1 : (name == "PT100") = false := beq_eq_false_iff_ne.mpr h1
  have b2 : (name == "PT1000") = false := beq_eq_false_iff_ne.mpr h2
  simp [lookupSensor, R0_values, List.lookup, b1, b2]

theorem lookup_absent_typed_witness :
    (("KTY84" : String) ≠ "PT100" ∧ ("KTY84" : String) ≠ "PT1000") ∧
    lookupSensor ("KTY84") = none :=
  ⟨⟨by decide, by decide⟩, lookup_absent_typed ("KTY84") (by decide) (by decide)⟩

/-- C10: the forward evaluation is linear in the base resistance:
`resistance_from_temperature t R0 = R0 * resistance_from_temperature t 1`,
and the PT1000 value is exactly ten times the PT100 value. -/
theorem forward_linear_in_base (t R0 : ℚ) :
    resistance_from_temperature t R0 = R0 * resistance_from_temperature t 1 ∧
    resistance_from_temperature t 1000 = 10 * resistance_from_temperature t 100 := by
  unfold resistance_from_temperature resistance_cvd
  split_ifs with h
  · exact ⟨by ring, by ring⟩
  · exact ⟨by ring, by ring⟩

/-- C3: the inverse solver is a total function that either signals
non-convergence as the ordinary value `none`, or returns a numeric
temperature that was produced by a Newton step from an estimate with
nonzero slope and that passed the convergence test; no other outcome (in
particular no fault) is possible. -/
theorem solver_verified_result (R R0 g : ℚ) :
    temperature_from_resistance R R0 g = none ∨
    ∃ u s, temperature_from_resistance R R0 g = some u ∧
      cvd_deriv s R0 ≠ 0 ∧ u = newtonStep R R0 s ∧ |u - s| < 1/1000000 := by
  cases h : temperature_from_resistance R R0 g with
  | none => exact Or.inl rfl
  | some u =>
    obtain ⟨s, h1, h2, h3⟩ := newtonIter_some_conv R R0 50 g u h
    exact Or.inr ⟨u, s, rfl, h1, h2, h3⟩

/-- The inverse solver's answer on the spec's concrete scenario input
`138.506` Ohms for PT100 lies in `[100.0013, 100.0014]` (kernel
evaluation of the modelled iteration). -/
theorem pt100_inverse_bracket :
    solver_in_range (temperature_from_resistance (138506/1000) 100 0)
      (1000013/10000) (1000014/10000) = true := by decide

/-- C8, counterexample: the inverse solver applied to `138.506` Ohms for
PT100 returns a value farther than `1e-3` from `100.0` (it is about
`100.00132`), so the claimed `1e-3` tolerance fails. -/
theorem pt100_scenario_counterexample :
    ∃ u, temperature_from_resistance (138506/1000) 100 0 = some u ∧
      1/1000 < |u - 100| := by
  obtain ⟨u, hu, hlo, hhi⟩ := solver_in_range_sound pt100_inverse_bracket
  refine ⟨u, hu, ?_⟩
  rw [abs_of_pos (by linarith : (0:ℚ) < u - 100)]
  linarith

/-- C8, amended: with the PT100 definition, the forward evaluation at 0°C
equals exactly 100 Ohms, the forward evaluation at 100°C is 138.5055 Ohms
(within `1e-3` of 138.506), and the inverse solver applied to 138.506
Ohms returns approximately 100.0013°C, which is within `2e-3` (not
`1e-3`) of 100.0°C. -/
theorem pt100_scenario_amended :
    resistance_from_temperature 0 100 = 100 ∧
    |resistance_from_temperature 100 100 - 138506/1000| ≤ 1/1000 ∧
    ∃ u, temperature_from_resistance (138506/1000) 100 0 = some u ∧
      |u - 100| ≤ 2/1000 := by
  refine ⟨?_, ?_, ?_⟩
  · norm_num [resistance_from_temperature, resistance_cvd]
  · have hv : resistance_from_temperature 100 100 = 1385055/10000 := by
      norm_num [resistance_from_temperature, resistance_cvd, A, B]
    rw [hv, abs_le]
    constructor <;> norm_num
  · obtain ⟨u, hu, hlo, hhi⟩ := solver_in_range_sound pt100_inverse_bracket
    refine ⟨u, hu, ?_⟩
    rw [abs_le]
    constructor <;> linarith

/-! ## Convergence of the modelled Newton iteration (round trip) -/

/-- One Newton step towards a target on the quadratic branch: starting
from `0 ≤ t ≤ tstar ≤ 850` with target `resistance_from_temperature tstar
R0`, the step stays in `[t, tstar]`, contracts the distance to `tstar` by
a factor of at least 5, and satisfies a quadratic-convergence bound. -/
theorem newtonStep_pos (R0 t tstar : ℚ) (hR0 : 0 < R0) (ht0 : 0 ≤ t)
    (hts : t ≤ tstar) (hhi : tstar ≤ 850) :
    t ≤ newtonStep (resistance_from_temperature tstar R0) R0 t ∧
    newtonStep (resistance_from_temperature tstar R0) R0 t ≤ tstar ∧
    5*(tstar - newtonStep (resistance_from_temperature tstar R0) R0 t)
      ≤ tstar - t ∧
    (tstar - newtonStep (resistance_from_temperature tstar R0) R0 t)
        * (29265500/10^10)
      ≤ (5775/10^10) * (tstar - t)^2 := by
  have hts0 : (0:ℚ) ≤ tstar := le_trans ht0 hts
  have ht850 : t ≤ 850 := le_trans hts hhi
  have hd0 : (0:ℚ) < 39083/10^7 + 2*(-5775/10^10)*t := by linarith
  have hne : (39083/10^7 + 2*(-5775/10^10)*t : ℚ) ≠ 0 := hd0.ne'
  have hXdiff : resistance_from_temperature t R0
      - resistance_from_temperature tstar R0
      = R0 * ((t - tstar) * ((39083/10^7) + (-5775/10^10)*(t + tstar))) := by
    unfold resistance_from_temperature resistance_cvd
    rw [if_pos (show t ≥ 0 from ht0), if_pos (show tstar ≥ 0 from hts0)]
    simp only [A, B]
    ring
  have hcd : cvd_deriv t R0
      = R0 * ((39083/10^7) + 2*(-5775/10^10)*t) := by
    unfold cvd_deriv
    rw [if_pos (show t ≥ 0 from ht0)]
    simp only [A, B]
  have hstep : newtonStep (resistance_from_temperature tstar R0) R0 t
      = t - (t - tstar) * ((39083/10^7) + (-5775/10^10)*(t + tstar))
          / ((39083/10^7) + 2*(-5775/10^10)*t) := by
    unfold newtonStep
    rw [hcd, hXdiff, mul_div_mul_left _ _ hR0.ne']
  have hkey : (tstar - newtonStep (resistance_from_temperature tstar R0) R0 t)
        * ((39083/10^7) + 2*(-5775/10^10)*t)
      = (5775/10^10) * (tstar - t)^2 := by
    rw [hstep]
    calc (tstar - (t - (t - tstar) * ((39083/10^7) + (-5775/10^10)*(t + tstar))
            / ((39083/10^7) + 2*(-5775/10^10)*t)))
          * ((39083/10^7) + 2*(-5775/10^10)*t)
        = (tstar - t) * ((39083/10^7) + 2*(-5775/10^10)*t)
            + ((t - tstar) * ((39083/10^7) + (-5775/10^10)*(t + tstar))
                / ((39083/10^7) + 2*(-5775/10^10)*t))
              * ((39083/10^7) + 2*(-5775/10^10)*t) := by ring
      _ = (tstar - t) * ((39083/10^7) + 2*(-5775/10^10)*t)
            + (t - tstar) * ((39083/10^7) + (-5775/10^10)*(t + tstar)) := by
          rw [div_mul_cancel₀ _ hne]
      _ = (5775/10^10) * (tstar - t)^2 := by ring
  have hkey2 : (newtonStep (resistance_from_temperature tstar R0) R0 t - t)
        * ((39083/10^7) + 2*(-5775/10^10)*t)
      = (tstar - t) * ((39083/10^7) + (-5775/10^10)*(t + tstar)) := by
    rw [hstep]
    calc (t - (t - tstar) * ((39083/10^7) + (-5775/10^10)*(t + tstar))
            / ((39083/10^7) + 2*(-5775/10^10)*t) - t)
          * ((39083/10^7) + 2*(-5775/10^10)*t)
        = -(((t - tstar) * ((39083/10^7) + (-5775/10^10)*(t + tstar))
            / ((39083/10^7) + 2*(-5775/10^10)*t))
              * ((39083/10^7) + 2*(-5775/10^10)*t)) := by ring
      _ = -((t - tstar) * ((39083/10^7) + (-5775/10^10)*(t + tstar))) := by
          rw [div_mul_cancel₀ _ hne]
      _ = (tstar - t) * ((39083/10^7) + (-5775/10^10)*(t + tstar)) := by ring
  have he0 : (0:ℚ) ≤ tstar - t := by linarith
  have he850 : tstar - t ≤ 850 := by linarith
  have hdD : (29265500/10^10 : ℚ) ≤ 39083/10^7 + 2*(-5775/10^10)*t := by
    linarith
  have hg0 : (0:ℚ) ≤ (39083/10^7) + (-5775/10^10)*(t + tstar) := by linarith
  have hx0 : 0 ≤ tstar - newtonStep (resistance_from_temperature tstar R0) R0 t := by
    nlinarith [hkey, hd0, sq_nonneg (tstar - t)]
  refine ⟨?_, by linarith, ?_, ?_⟩
  · nlinarith [hkey2, hd0, mul_nonneg he0 hg0]
  · have h1 : (0:ℚ) ≤ (29265500/10^10) - 5*(5775/10^10)*(tstar - t) := by
      linarith
    nlinarith [hkey, hd0, mul_nonneg he0 h1, mul_nonneg he0 (sub_nonneg.mpr hdD)]
  · nlinarith [hkey, mul_le_mul_of_nonneg_left hdD hx0]

/-- The slope is positive at nonnegative estimates up to 850. -/
theorem cvd_deriv_pos_of_nonneg (R0 t : ℚ) (hR0 : 0 < R0) (ht0 : 0 ≤ t)
    (ht850 : t ≤ 850) : 0 < cvd_deriv t R0 := by
  unfold cvd_deriv
  rw [if_pos (show t ≥ 0 from ht0)]
  have hd : (0:ℚ) < A + 2*B*t := by
    simp only [A, B]
    linarith
  exact mul_pos hR0 hd

/-- Convergence of the iteration on the quadratic branch: from an estimate
below a target temperature in `[0, 850]`, with enough fuel relative to the
distance, the iteration succeeds and lands within `1e-4` below the target. -/
theorem newtonIterPos (R0 : ℚ) (hR0 : 0 < R0) :
    ∀ (k : Nat) (t tstar : ℚ), 0 ≤ t → t ≤ tstar → tstar ≤ 850 →
      tstar - t < 5^k/10^6 →
      ∃ u, newtonIter (resistance_from_temperature tstar R0) R0 t (k+1) = some u ∧
        0 ≤ tstar - u ∧ tstar - u ≤ 1/10^4 := by
  intro k
  induction k with
  | zero =>
    intro t tstar ht0 hts hhi hlt
    norm_num at hlt
    obtain ⟨hst1, hst2, hst3, hst4⟩ := newtonStep_pos R0 t tstar hR0 ht0 hts hhi
    have hfp : ¬ cvd_deriv t R0 = 0 :=
      (cvd_deriv_pos_of_nonneg R0 t hR0 ht0 (le_trans hts hhi)).ne'
    have hconv : |newtonStep (resistance_from_temperature tstar R0) R0 t - t|
        < 1/1000000 := by
      rw [abs_of_nonneg (by linarith :
        (0:ℚ) ≤ newtonStep (resistance_from_temperature tstar R0) R0 t - t)]
      linarith
    refine ⟨newtonStep (resistance_from_temperature tstar R0) R0 t, ?_, by linarith, ?_⟩
    · simp only [newtonIter]
      rw [if_neg hfp, if_pos hconv]
    · linarith
  | succ k ih =>
    intro t tstar ht0 hts hhi hlt
    obtain ⟨hst1, hst2, hst3, hst4⟩ := newtonStep_pos R0 t tstar hR0 ht0 hts hhi
    have hfp : ¬ cvd_deriv t R0 = 0 :=
      (cvd_deriv_pos_of_nonneg R0 t hR0 ht0 (le_trans hts hhi)).ne'
    by_cases hconv : |newtonStep (resistance_from_temperature tstar R0) R0 t - t|
        < 1/1000000
    · refine ⟨newtonStep (resistance_from_temperature tstar R0) R0 t, ?_,
        by linarith, ?_⟩
      · simp only [newtonIter]
        rw [if_neg hfp, if_pos hconv]
      · have hs0 : (0:ℚ) ≤ newtonStep (resistance_from_temperature tstar R0) R0 t - t := by
          linarith
        have hs6 : newtonStep (resistance_from_temperature tstar R0) R0 t - t
            < 1/1000000 := by
          rw [abs_of_nonneg hs0] at hconv
          exact hconv
        have he0 : (0:ℚ) ≤ tstar - t := by linarith
        have he850 : tstar - t ≤ 850 := by linarith
        have hsq : (tstar - t)^2 ≤ 850 * (tstar - t) := by
          nlinarith [mul_nonneg he0 (sub_nonneg.mpr he850)]
        linarith [hst4, hsq]
    · rw [pow_succ] at hlt
      have hp : (0:ℚ) < (5:ℚ)^k := by positivity
      have hlt' : tstar - newtonStep (resistance_from_temperature tstar R0) R0 t
          < 5^k/10^6 := by
        linarith
      obtain ⟨u, hu, hu1, hu2⟩ := ih
        (newtonStep (resistance_from_temperature tstar R0) R0 t) tstar
        (by linarith) hst2 hhi hlt'
      refine ⟨u, ?_, hu1, hu2⟩
      simp only [newtonIter]
      rw [if_neg hfp, if_neg hconv]
      exact hu

set_option maxHeartbeats 2000000 in
/-- One Newton step towards a target on the cubic branch: starting from
`-209 ≤ t ≤ tstar < 0` with target `resistance_from_temperature tstar R0`,
the step stays in `[t, tstar]`, contracts the distance to `tstar` by a
factor of at least 5, and satisfies a quadratic-convergence bound. -/
theorem newtonStep_neg (R0 t tstar : ℚ) (hR0 : 0 < R0) (hm : -209 ≤ t)
    (hts : t ≤ tstar) (hneg : tstar < 0) :
    t ≤ newtonStep (resistance_from_temperature tstar R0) R0 t ∧
    newtonStep (resistance_from_temperature tstar R0) R0 t ≤ tstar ∧
    5*(tstar - newtonStep (resistance_from_temperature tstar R0) R0 t)
      ≤ tstar - t ∧
    (tstar - newtonStep (resistance_from_temperature tstar R0) R0 t)
        * (39083/10^7)
      ≤ (2118797461/10^15) * (tstar - t)^2 := by
  have ht0 : t < 0 := lt_of_le_of_lt hts hneg
  have he0 : (0:ℚ) ≤ tstar - t := by linarith
  have he209 : tstar - t ≤ 209 := by linarith
  have het : tstar - t ≤ -t := by linarith
  have ht3 : t^3 ≤ 0 := by nlinarith [sq_nonneg t]
  have hp' : (39083/10^7:ℚ)
      ≤ 39083/10^7 + 2*(-5775/10^10)*t + (-4183/10^15)*(4*t^3 - 300*t^2) := by
    nlinarith [sq_nonneg t, ht3]
  have hdpos : (0:ℚ)
      < 39083/10^7 + 2*(-5775/10^10)*t + (-4183/10^15)*(4*t^3 - 300*t^2) :=
    lt_of_lt_of_le (by norm_num) hp'
  have hne : (39083/10^7 + 2*(-5775/10^10)*t
      + (-4183/10^15)*(4*t^3 - 300*t^2) : ℚ) ≠ 0 := hdpos.ne'
  have hXdiff : resistance_from_temperature t R0
      - resistance_from_temperature tstar R0
      = R0 * ((39083/10^7)*(t - tstar) + (-5775/10^10)*(t^2 - tstar^2)
          + (-4183/10^15)*((t-100)*t^3 - (tstar-100)*tstar^3)) := by
    unfold resistance_from_temperature resistance_cvd
    rw [if_neg (show ¬ t ≥ 0 from not_le.mpr ht0),
      if_neg (show ¬ tstar ≥ 0 from not_le.mpr hneg)]
    simp only [A, B, C]
    ring
  have hcd : cvd_deriv t R0
      = R0 * (39083/10^7 + 2*(-5775/10^10)*t
          + (-4183/10^15)*(4*t^3 - 300*t^2)) := by
    unfold cvd_deriv
    rw [if_neg (show ¬ t ≥ 0 from not_le.mpr ht0)]
    simp only [A, B, C]
  have hstep : newtonStep (resistance_from_temperature tstar R0) R0 t
      = t - ((39083/10^7)*(t - tstar) + (-5775/10^10)*(t^2 - tstar^2)
          + (-4183/10^15)*((t-100)*t^3 - (tstar-100)*tstar^3))
          / (39083/10^7 + 2*(-5775/10^10)*t
              + (-4183/10^15)*(4*t^3 - 300*t^2)) := by
    unfold newtonStep
    rw [hcd, hXdiff, mul_div_mul_left _ _ hR0.ne']
  have hkey : (tstar - newtonStep (resistance_from_temperature tstar R0) R0 t)
        * (39083/10^7 + 2*(-5775/10^10)*t + (-4183/10^15)*(4*t^3 - 300*t^2))
      = (tstar - t)^2
          * ((5775/10^10) + (4183/10^15)*(6*t^2 + 4*t*(tstar-t) + (tstar-t)^2)
              - (418300/10^15)*(3*t + (tstar-t))) := by
    rw [hstep]
    calc (tstar - (t - ((39083/10^7)*(t - tstar) + (-5775/10^10)*(t^2 - tstar^2)
            + (-4183/10^15)*((t-100)*t^3 - (tstar-100)*tstar^3))
            / (39083/10^7 + 2*(-5775/10^10)*t
                + (-4183/10^15)*(4*t^3 - 300*t^2))))
          * (39083/10^7 + 2*(-5775/10^10)*t + (-4183/10^15)*(4*t^3 - 300*t^2))
        = (tstar - t)
            * (39083/10^7 + 2*(-5775/10^10)*t + (-4183/10^15)*(4*t^3 - 300*t^2))
          + (((39083/10^7)*(t - tstar) + (-5775/10^10)*(t^2 - tstar^2)
              + (-4183/10^15)*((t-100)*t^3 - (tstar-100)*tstar^3))
              / (39083/10^7 + 2*(-5775/10^10)*t
                  + (-4183/10^15)*(4*t^3 - 300*t^2)))
            * (39083/10^7 + 2*(-5775/10^10)*t
                + (-4183/10^15)*(4*t^3 - 300*t^2)) := by ring
      _ = (tstar - t)
            * (39083/10^7 + 2*(-5775/10^10)*t + (-4183/10^15)*(4*t^3 - 300*t^2))
          + ((39083/10^7)*(t - tstar) + (-5775/10^10)*(t^2 - tstar^2)
              + (-4183/10^15)*((t-100)*t^3 - (tstar-100)*tstar^3)) := by
          rw [div_mul_cancel₀ _ hne]
      _ = (tstar - t)^2
            * ((5775/10^10) + (4183/10^15)*(6*t^2 + 4*t*(tstar-t) + (tstar-t)^2)
                - (418300/10^15)*(3*t + (tstar-t))) := by ring
  have hQlo : (0:ℚ)
      ≤ (5775/10^10) + (4183/10^15)*(6*t^2 + 4*t*(tstar-t) + (tstar-t)^2)
          - (418300/10^15)*(3*t + (tstar-t)) := by
    nlinarith [sq_nonneg (2*t + (tstar - t)), sq_nonneg t]
  have hQhi : (5775/10^10) + (4183/10^15)*(6*t^2 + 4*t*(tstar-t) + (tstar-t)^2)
        - (418300/10^15)*(3*t + (tstar-t))
      ≤ 2118797461/10^15 := by
    have h1 : (0:ℚ) ≤ (-t) * (t + 209) := by
      apply mul_nonneg
      · linarith
      · linarith
    have h2 : (0:ℚ) ≤ (tstar - t) * (209 - (tstar - t)) := by
      apply mul_nonneg he0
      linarith
    have h3 : (0:ℚ) ≤ (-t) * (tstar - t) := by
      apply mul_nonneg
      · linarith
      · exact he0
    nlinarith [h1, h2, h3]
  have hx : tstar - newtonStep (resistance_from_temperature tstar R0) R0 t
      = (tstar - t)^2
          * ((5775/10^10) + (4183/10^15)*(6*t^2 + 4*t*(tstar-t) + (tstar-t)^2)
              - (418300/10^15)*(3*t + (tstar-t)))
          / (39083/10^7 + 2*(-5775/10^10)*t
              + (-4183/10^15)*(4*t^3 - 300*t^2)) := by
    rw [eq_div_iff hne]
    exact hkey
  have hx0 : 0 ≤ tstar - newtonStep (resistance_from_temperature tstar R0) R0 t := by
    rw [hx]
    exact div_nonneg (mul_nonneg (sq_nonneg _) hQlo) hdpos.le
  have h5eQ : 5*(tstar - t)
        * ((5775/10^10) + (4183/10^15)*(6*t^2 + 4*t*(tstar-t) + (tstar-t)^2)
            - (418300/10^15)*(3*t + (tstar-t)))
      ≤ 39083/10^7 := by
    calc 5*(tstar - t)
          * ((5775/10^10) + (4183/10^15)*(6*t^2 + 4*t*(tstar-t) + (tstar-t)^2)
              - (418300/10^15)*(3*t + (tstar-t)))
        ≤ 5*(tstar - t) * (2118797461/10^15) := by
          apply mul_le_mul_of_nonneg_left hQhi
          linarith
      _ ≤ 5*209 * (2118797461/10^15) := by
          apply mul_le_mul_of_nonneg_right _ (by norm_num)
          linarith
      _ ≤ 39083/10^7 := by norm_num
  have hcontr : 5*(tstar - newtonStep (resistance_from_temperature tstar R0) R0 t)
      ≤ tstar - t := by
    rw [hx]
    rw [show (5:ℚ)*((tstar - t)^2
          * ((5775/10^10) + (4183/10^15)*(6*t^2 + 4*t*(tstar-t) + (tstar-t)^2)
              - (418300/10^15)*(3*t + (tstar-t)))
          / (39083/10^7 + 2*(-5775/10^10)*t
              + (-4183/10^15)*(4*t^3 - 300*t^2)))
        = (5*((tstar - t)^2
            * ((5775/10^10) + (4183/10^15)*(6*t^2 + 4*t*(tstar-t) + (tstar-t)^2)
                - (418300/10^15)*(3*t + (tstar-t)))))
          / (39083/10^7 + 2*(-5775/10^10)*t
              + (-4183/10^15)*(4*t^3 - 300*t^2)) from by ring]
    rw [div_le_iff₀ hdpos]
    nlinarith [mul_nonneg he0 (sub_nonneg.mpr h5eQ),
      mul_nonneg he0 (sub_nonneg.mpr hp')]
  refine ⟨by linarith, by linarith, hcontr, ?_⟩
  have hQa : ((5775/10^10) + (4183/10^15)*(6*t^2 + 4*t*(tstar-t) + (tstar-t)^2)
        - (418300/10^15)*(3*t + (tstar-t))) * (39083/10^7)
      ≤ (2118797461/10^15)
          * (39083/10^7 + 2*(-5775/10^10)*t
              + (-4183/10^15)*(4*t^3 - 300*t^2)) :=
    mul_le_mul hQhi hp' (by norm_num) (by norm_num)
  have hQa2 := mul_le_mul_of_nonneg_left hQa (sq_nonneg (tstar - t))
  rw [hx]
  rw [show (tstar - t)^2
        * ((5775/10^10) + (4183/10^15)*(6*t^2 + 4*t*(tstar-t) + (tstar-t)^2)
            - (418300/10^15)*(3*t + (tstar-t)))
        / (39083/10^7 + 2*(-5775/10^10)*t
            + (-4183/10^15)*(4*t^3 - 300*t^2)) * (39083/10^7)
      = ((tstar - t)^2
          * (((5775/10^10) + (4183/10^15)*(6*t^2 + 4*t*(tstar-t) + (tstar-t)^2)
              - (418300/10^15)*(3*t + (tstar-t))) * (39083/10^7)))
        / (39083/10^7 + 2*(-5775/10^10)*t
            + (-4183/10^15)*(4*t^3 - 300*t^2)) from by ring]
  rw [div_le_iff₀ hdpos]
  nlinarith [hQa2]

/-- The slope is positive at negative estimates. -/
theorem cvd_deriv_pos_of_neg (R0 t : ℚ) (hR0 : 0 < R0) (ht0 : t < 0) :
    0 < cvd_deriv t R0 := by
  unfold cvd_deriv
  rw [if_neg (not_le.mpr ht0)]
  have ht3 : t^3 ≤ 0 := by nlinarith [sq_nonneg t]
  have hd : (0:ℚ) < A + 2*B*t + C*(4*t^3 - 300*t^2) := by
    simp only [A, B, C]
    nlinarith [sq_nonneg t, ht3]
  exact mul_pos hR0 hd

/-- Convergence of the iteration on the cubic branch: from an estimate in
`[-209, tstar]` below a negative target temperature, with enough fuel
relative to the distance, the iteration succeeds and lands within `1e-4`
below the target. -/
theorem newtonIterNeg (R0 : ℚ) (hR0 : 0 < R0) :
    ∀ (k : Nat) (t tstar : ℚ), -209 ≤ t → t ≤ tstar → tstar < 0 →
      tstar - t < 5^k/10^6 →
      ∃ u, newtonIter (resistance_from_temperature tstar R0) R0 t (k+1) = some u ∧
        0 ≤ tstar - u ∧ tstar - u ≤ 1/10^4 := by
  intro k
  induction k with
  | zero =>
    intro t tstar hm hts hneg hlt
    norm_num at hlt
    obtain ⟨hst1, hst2, hst3, hst4⟩ := newtonStep_neg R0 t tstar hR0 hm hts hneg
    have hfp : ¬ cvd_deriv t R0 = 0 :=
      (cvd_deriv_pos_of_neg R0 t hR0 (lt_of_le_of_lt hts hneg)).ne'
    have hconv : |newtonStep (resistance_from_temperature tstar R0) R0 t - t|
        < 1/1000000 := by
      rw [abs_of_nonneg (by linarith :
        (0:ℚ) ≤ newtonStep (resistance_from_temperature tstar R0) R0 t - t)]
      linarith
    refine ⟨newtonStep (resistance_from_temperature tstar R0) R0 t, ?_, by linarith, ?_⟩
    · simp only [newtonIter]
      rw [if_neg hfp, if_pos hconv]
    · linarith
  | succ k ih =>
    intro t tstar hm hts hneg hlt
    obtain ⟨hst1, hst2, hst3, hst4⟩ := newtonStep_neg R0 t tstar hR0 hm hts hneg
    have hfp : ¬ cvd_deriv t R0 = 0 :=
      (cvd_deriv_pos_of_neg R0 t hR0 (lt_of_le_of_lt hts hneg)).ne'
    by_cases hconv : |newtonStep (resistance_from_temperature tstar R0) R0 t - t|
        < 1/1000000
    · refine ⟨newtonStep (resistance_from_temperature tstar R0) R0 t, ?_,
        by linarith, ?_⟩
      · simp only [newtonIter]
        rw [if_neg hfp, if_pos hconv]
      · have hs0 : (0:ℚ) ≤ newtonStep (resistance_from_temperature tstar R0) R0 t - t := by
          linarith
        have hs6 : newtonStep (resistance_from_temperature tstar R0) R0 t - t
            < 1/1000000 := by
          rw [abs_of_nonneg hs0] at hconv
          exact hconv
        have he0 : (0:ℚ) ≤ tstar - t := by linarith
        have he209 : tstar - t ≤ 209 := by linarith
        have hsq : (tstar - t)^2 ≤ 209 * (tstar - t) := by
          nlinarith [mul_nonneg he0 (sub_nonneg.mpr he209)]
        linarith [hst4, hsq]
    · rw [pow_succ] at hlt
      have hp : (0:ℚ) < (5:ℚ)^k := by positivity
      have hlt' : tstar - newtonStep (resistance_from_temperature tstar R0) R0 t
          < 5^k/10^6 := by
        linarith
      obtain ⟨u, hu, hu1, hu2⟩ := ih
        (newtonStep (resistance_from_temperature tstar R0) R0 t) tstar
        (by linarith) hst2 hneg hlt'
      refine ⟨u, ?_, hu1, hu2⟩
      simp only [newtonIter]
      rw [if_neg hfp, if_neg hconv]
      exact hu

/-- The first Newton step from the fixed starting point 0 towards a
negative target in `[-200, 0)` lands in `[-209, tstar]`. -/
theorem newtonStep_first_neg (R0 tstar : ℚ) (hR0 : 0 < R0)
    (hlo : -200 ≤ tstar) (hneg : tstar < 0) :
    newtonStep (resistance_from_temperature tstar R0) R0 0 ≤ tstar ∧
    -209 ≤ newtonStep (resistance_from_temperature tstar R0) R0 0 := by
  have ha : (0:ℚ) < 39083/10^7 := by norm_num
  have hXdiff : resistance_from_temperature 0 R0
      - resistance_from_temperature tstar R0
      = R0 * (-((39083/10^7)*tstar + (-5775/10^10)*tstar^2
          + (-4183/10^15)*((tstar-100)*tstar^3))) := by
    unfold resistance_from_temperature resistance_cvd
    rw [if_pos (show (0:ℚ) ≥ 0 from le_refl 0),
      if_neg (show ¬ tstar ≥ 0 from not_le.mpr hneg)]
    simp only [A, B, C]
    ring
  have hcd : cvd_deriv 0 R0 = R0 * (39083/10^7) := by
    unfold cvd_deriv
    rw [if_pos (show (0:ℚ) ≥ 0 from le_refl 0)]
    simp only [A, B]
    ring
  have hstep : newtonStep (resistance_from_temperature tstar R0) R0 0
      = ((39083/10^7)*tstar + (-5775/10^10)*tstar^2
          + (-4183/10^15)*((tstar-100)*tstar^3)) / (39083/10^7) := by
    unfold newtonStep
    rw [hcd, hXdiff, mul_div_mul_left _ _ hR0.ne']
    ring
  have hts3 : tstar^3 ≤ 0 := by nlinarith [sq_nonneg tstar]
  have h2 : tstar^2 ≤ 40000 := by
    nlinarith [mul_nonneg (neg_nonneg.mpr hneg.le)
      (by linarith : (0:ℚ) ≤ tstar + 200)]
  have h3 : -8000000 ≤ tstar^3 := by
    nlinarith [mul_le_mul_of_nonneg_right (show (-200:ℚ) ≤ tstar from hlo)
      (sq_nonneg tstar), h2]
  have h4 : tstar^4 ≤ 1600000000 := by
    nlinarith [mul_le_mul_of_nonneg_left h2 (sq_nonneg tstar), h2]
  constructor
  · rw [hstep, div_le_iff₀ ha]
    nlinarith [sq_nonneg tstar, hts3]
  · rw [hstep, le_div_iff₀ ha]
    nlinarith [h2, h3, h4]

/-- C2: for every positive base resistance and every temperature `t` in
the valid range `[-200, 850]`, the modelled inverse solver applied to the
forward evaluation of `t` converges to a `some` answer within `1e-4`
degrees of `t`. -/
theorem round_trip_within_tolerance (R0 t : ℚ) (hR0 : 0 < R0)
    (hlo : -200 ≤ t) (hhi : t ≤ 850) :
    ∃ u, temperature_from_resistance (resistance_from_temperature t R0) R0 0
        = some u ∧ |u - t| ≤ 1/10^4 := by
  rcases le_or_lt 0 t with hpos | hneg
  · have hbig : (850:ℚ) < 5^49/10^6 := by norm_num
    obtain ⟨u, hu, h1, h2⟩ := newtonIterPos R0 hR0 49 0 t le_rfl hpos hhi
      (by linarith)
    refine ⟨u, hu, ?_⟩
    rw [abs_le]
    constructor <;> linarith
  · obtain ⟨hfs1, hfs2⟩ := newtonStep_first_neg R0 t hR0 hlo hneg
    have hfp : ¬ cvd_deriv 0 R0 = 0 :=
      (cvd_deriv_pos_of_nonneg R0 0 hR0 le_rfl (by norm_num)).ne'
    by_cases hconv : |newtonStep (resistance_from_temperature t R0) R0 0 - 0|
        < 1/1000000
    · refine ⟨newtonStep (resistance_from_temperature t R0) R0 0, ?_, ?_⟩
      · show newtonIter (resistance_from_temperature t R0) R0 0 (49+1)
          = some (newtonStep (resistance_from_temperature t R0) R0 0)
        simp only [newtonIter]
        rw [if_neg hfp, if_pos hconv]
      · have hstneg : newtonStep (resistance_from_temperature t R0) R0 0 < 0 :=
          lt_of_le_of_lt hfs1 hneg
        rw [sub_zero, abs_of_neg hstneg] at hconv
        rw [abs_le]
        constructor <;> linarith
    · have h209 : (209:ℚ) < 5^48/10^6 := by norm_num
      obtain ⟨u, hu, h1, h2⟩ := newtonIterNeg R0 hR0 48
        (newtonStep (resistance_from_temperature t R0) R0 0) t hfs2 hfs1 hneg
        (by linarith)
      refine ⟨u, ?_, ?_⟩
      · show newtonIter (resistance_from_temperature t R0) R0 0 (49+1) = some u
        simp only [newtonIter]
        rw [if_neg hfp, if_neg hconv]
        exact hu
      · rw [abs_le]
        constructor <;> linarith

theorem round_trip_within_tolerance_witness :
    (0 < (100:ℚ) ∧ (-200:ℚ) ≤ 25 ∧ (25:ℚ) ≤ 850) ∧
    ∃ u, temperature_from_resistance (resistance_from_temperature 25 100) 100 0
        = some u ∧ |u - 25| ≤ 1/10^4 :=
  ⟨by norm_num,
    round_trip_within_tolerance 100 25 (by norm_num) (by norm_num) (by norm_num)⟩

end Main
